import Mathlib

/-!
Verification of the room-state coordination layer of the yoyomusic backend.

The definitions below are shallow embeddings of the Python source:
  - `YoYo.RoomMgr`   : app/services/room_manager.py (playback-state hash ops)
  - `YoYo.WsMgr`     : app/services/ws_manager.py (connection manager / pubsub)
  - `YoYo.RateLim`   : app/services/rate_limiter.py (sliding-window limiter)
  - `YoYo.Queue`     : app/api/v1/endpoints/queue.py (transition engine, votes)
  - `YoYo.Yt`        : app/services/yt_service.py (distributed-lock stream
                       resolution, as an interleaving transition system)

Redis hashes are modelled as association lists of string fields to string
values (redis stores strings; `update_playback_state` stringifies every
value with Python `str`).  Stateful endpoints become pure state-passing
functions; concurrency becomes explicit schedules over atomic steps, one
step per `await` boundary of the source.
-/

namespace YoYo

/-- Python values as they appear in broadcast payloads and in the default
state snapshot returned by `get_room_state` (strings from redis, native
ints/floats/bools/None/dicts built in Python). -/
inductive PyVal where
  | str (s : String)
  | int (n : Int)
  | rat (q : ℚ)
  | bool (b : Bool)
  | none
  | dict (d : List (String × PyVal))
  deriving Repr

/-- A redis hash: field-to-value association list, both strings. -/
abbrev RHash := List (String × String)

namespace RoomMgr

/-- Redis HSET on one field: replace the value if the field exists,
otherwise append the field (embedding of `redis.hset(key, k, v)`). -/
def hset (h : RHash) (k v : String) : RHash :=
  match h with
  | [] => [(k, v)]
  | (k₀, v₀) :: t => if k₀ = k then (k, v) :: t else (k₀, v₀) :: hset t k v

/-- Embedding of `RoomManager.update_playback_state`: HSET each field of
the updates dict in insertion order (values already stringified). -/
def update_playback_state (h : RHash) (updates : List (String × String)) : RHash :=
  updates.foldl (fun acc kv => hset acc kv.1 kv.2) h

/-- Embedding of `RoomManager.play`: overwrite status, current song,
position, timestamp and speed.  `now` stands for `_get_server_time()`. -/
def play (h : RHash) (song_id : String) (position_ms : Int) (now : Int) : RHash :=
  update_playback_state h
    [("status", "playing"), ("current_song_id", song_id),
     ("position_ms", toString position_ms), ("updated_at", toString now),
     ("speed", "1.0")]

/-- Embedding of `RoomManager.pause_at`. -/
def pause_at (h : RHash) (position_ms : Int) (now : Int) : RHash :=
  update_playback_state h
    [("status", "paused"), ("position_ms", toString position_ms),
     ("updated_at", toString now)]

/-- Embedding of `RoomManager.seek`: updates only `position_ms` and
`updated_at`; the `status` field is left untouched. -/
def seek (h : RHash) (position_ms : Int) (now : Int) : RHash :=
  update_playback_state h
    [("position_ms", toString position_ms), ("updated_at", toString now)]

/-- Embedding of `RoomManager.set_idle`. -/
def set_idle (h : RHash) (now : Int) : RHash :=
  update_playback_state h
    [("status", "idle"), ("current_song_id", ""), ("current_song_db_id", "0"),
     ("position_ms", "0"), ("updated_at", toString now)]

/-- The default snapshot built by `get_room_state` when the hash is empty
(note the Python literals: ints `0` and float `1.0`, not strings). -/
def default_state : List (String × PyVal) :=
  [("status", .str "idle"), ("current_song_id", .str ""),
   ("position_ms", .int 0), ("updated_at", .int 0), ("speed", .rat 1)]

/-- Embedding of `RoomManager.get_room_state`: HGETALL the state hash; if
it is empty (missing key) return the default snapshot, else the hash
itself (whose values are redis strings). -/
def get_room_state (h : RHash) : List (String × PyVal) :=
  if h.isEmpty then default_state
  else h.map (fun kv => (kv.1, .str kv.2))

/-- Effect of `RoomManager.initialize_room` on the state hash: the state
key is deleted, leaving an empty hash. -/
def initialize_room_state : RHash := []

/-- The playback-state invariant from the spec, read off the state hash:
an idle status forces an empty current song and a zero position. -/
def idleInv (h : RHash) : Prop :=
  h.lookup "status" = some "idle" →
    h.lookup "current_song_id" = some "" ∧ h.lookup "position_ms" = some "0"

instance (h : RHash) : Decidable (idleInv h) := by
  unfold idleInv; infer_instance

/-- Modelled from the spec: the server-authoritative drift-correction
formula for the effective playback position.  The reader that applies it
(the client resync path) is not part of the backend source; the formula is
`position_ms + (t - updated_at)` while playing, else `position_ms`. -/
def effectivePosition (status : String) (position_ms updated_at t : Int) : Int :=
  if status = "playing" then position_ms + (t - updated_at) else position_ms

end RoomMgr

namespace WsMgr

/-- Per-process state of `ConnectionManager` (ws_manager.py):
`active` is `active_connections` (room slug to local websocket list,
websockets numbered), `subscribed` is `_subscribed_rooms`, and `pending`
records unsubscribe tasks created by `disconnect` via
`asyncio.create_task` that have not yet run. -/
structure ConnMgr where
  active : List (String × List Nat)
  subscribed : List String
  pending : List String
  deriving Repr

/-- Replace the connection list of a room, adding the entry if absent. -/
def setConns (a : List (String × List Nat)) (room : String) (l : List Nat) :
    List (String × List Nat) :=
  match a with
  | [] => [(room, l)]
  | (r, m) :: t => if r = room then (room, l) :: t else (r, m) :: setConns t room l

/-- Remove a room's entry (Python `del active_connections[room_slug]`). -/
def delRoom (a : List (String × List Nat)) (room : String) : List (String × List Nat) :=
  a.filter (fun p => p.1 ≠ room)

/-- Fresh manager: no connections, no subscriptions, no pending tasks. -/
def init : ConnMgr := ⟨[], [], []⟩

/-- Embedding of `ConnectionManager.connect`: append the websocket to the
room's list (creating it), then subscribe the process to the room's
channel only if the room is not already in `_subscribed_rooms`. -/
def connect (m : ConnMgr) (ws : Nat) (room : String) : ConnMgr :=
  let cur := (m.active.lookup room).getD []
  let m₁ := { m with active := setConns m.active room (cur ++ [ws]) }
  if room ∈ m₁.subscribed then m₁
  else { m₁ with subscribed := m₁.subscribed ++ [room] }

/-- Embedding of `ConnectionManager.disconnect`: remove the websocket; if
the room's list becomes empty, delete the entry and schedule (not run) an
`_unsubscribe_room` task. -/
def disconnect (m : ConnMgr) (ws : Nat) (room : String) : ConnMgr :=
  match m.active.lookup room with
  | Option.none => m
  | some l =>
      let l₁ := l.erase ws
      if l₁.isEmpty then
        { m with active := delRoom m.active room, pending := m.pending ++ [room] }
      else { m with active := setConns m.active room l₁ }

/-- Embedding of a pending `_unsubscribe_room` task running: consume the
task; unsubscribe the room if it is still in `_subscribed_rooms`. -/
def run_unsubscribe (m : ConnMgr) (room : String) : ConnMgr :=
  if room ∈ m.pending then
    let m₁ := { m with pending := m.pending.erase room }
    if room ∈ m₁.subscribed then { m₁ with subscribed := m₁.subscribed.erase room }
    else m₁
  else m

/-- A publish to the room's channel by another process reaches this
process (and so causes work here) exactly when the process is subscribed;
an unsubscribed process's shared listener never sees the message. -/
def receivesPublish (m : ConnMgr) (room : String) : Bool :=
  decide (room ∈ m.subscribed)

/-- Whether `broadcast_local` finds any local connection entry for the
room (its first check: `room_slug not in active_connections`). -/
def hasLocalConns (m : ConnMgr) (room : String) : Bool :=
  (m.active.lookup room).isSome

/-- Embedding of `ConnectionManager.publish_event`: the serialized
message dict, in insertion order.  Note the third key is `room_slug`. -/
def publish_event_message (room_slug : String) (event_type : String)
    (data : List (String × PyVal)) : List (String × PyVal) :=
  [("type", .str event_type), ("data", .dict data), ("room_slug", .str room_slug)]

/-- Field names of a payload dict. -/
def keysOf (d : List (String × PyVal)) : List String := d.map (fun p => p.1)

/-- The event types appearing at `publish_event` call sites in the source
(rooms.py, queue.py, ws.py); the `participant_left` publish in ws.py is
commented out. -/
def published_event_types : List String :=
  ["playback_update", "queue_update", "vote_update", "participant_joined"]

/-- The five event types of the spec's broadcast wire contract. -/
def spec_event_types : List String :=
  ["playback_update", "queue_update", "vote_update", "participant_joined",
   "participant_left"]

/-- Embedding of the `vote_update` payload built in `vote_skip`
(queue.py lines 348-354), fields in insertion order. -/
def vote_update_data (song_id : Nat) (vote_count : Nat) (threshold : ℚ)
    (participant_count : Nat) (skipped : Bool) : List (String × PyVal) :=
  [("song_id", .int song_id), ("vote_count", .int vote_count),
   ("threshold", .rat threshold), ("participant_count", .int participant_count),
   ("skipped", .bool skipped)]

end WsMgr

namespace RateLim

/-- Embedding of `check_rate_limit` (rate_limiter.py).  The ZSET for one
key is a list of members with their scores; a member is the pair of the
request timestamp and a caller salt (Python builds `f"now:id(key)"`), its
score the timestamp.  The pipeline removes members with score in
`[0, now - window]`, adds the new member, counts, and admits iff the
count does not exceed the limit. -/
def check_rate_limit (st : List (Int × Nat)) (now : Int) (salt : Nat)
    (limit window : Int) : Bool × List (Int × Nat) :=
  let pruned := st.filter (fun e => decide (¬ (0 ≤ e.1 ∧ e.1 ≤ now - window)))
  let added := if (now, salt) ∈ pruned then pruned else pruned ++ [(now, salt)]
  let count : Int := added.length
  (decide (count ≤ limit), added)

/-- Run a sequence of requests (timestamp, salt) against one key starting
from an empty ZSET, collecting the admission decisions. -/
def run_rate_limit (limit window : Int) (reqs : List (Int × Nat)) :
    List Bool × List (Int × Nat) :=
  reqs.foldl
    (fun acc r =>
      let res := check_rate_limit acc.2 r.1 r.2 limit window
      (acc.1 ++ [res.1], res.2))
    ([], [])

/-- The per-room queue-add rate limit configured at the `add_to_queue`
call site (queue.py): 5 adds per 30 seconds. -/
def queue_add_limit : Int := 5

/-- The per-room queue-add window configured at the `add_to_queue` call
site (queue.py), in seconds. -/
def queue_add_window : Int := 30

end RateLim

namespace Queue

/-- Embedding of `SongStatus` (models/song.py). -/
inductive SongStatus where
  | queued
  | playing
  | played
  | skipped
  deriving DecidableEq, Repr

/-- Embedding of a `Song` row (models/song.py), the fields the queue
logic reads: record id, external media id, status and queue position. -/
structure Song where
  id : Nat
  yt_id : String
  status : SongStatus
  position : Int
  deriving DecidableEq, Repr

/-- State touched by the queue endpoints: the `songs` table rows of one
room, the redis `current_song_db_id` field (`Option.none` models both a
missing field and the `"0"` written by `set_idle`, which
`get_current_song_db_id` turns into falsy `0`), the per-song skip-vote
sets, the room participant set, the playback-state hash, and a ghost
trace `started` of song ids marked playing by `transition_to_next`. -/
structure QState where
  songs : List Song
  currentDbId : Option Nat
  votes : List (Nat × List String)
  participants : List String
  hash : RHash
  started : List Nat
  deriving Repr

/-- Lookup of a song row by primary key (`session.get(Song, id)`). -/
def findSong (songs : List Song) (i : Nat) : Option Song :=
  songs.find? (fun s => s.id == i)

/-- Update the status of the row with the given id. -/
def markStatus (songs : List Song) (i : Nat) (st : SongStatus) : List Song :=
  songs.map (fun s => if s.id = i then { s with status := st } else s)

/-- Embedding of the next-song query in `transition_to_next`:
`WHERE status == QUEUED ORDER BY position ASC LIMIT 1` (first row of
minimal position; ties resolved by table order). -/
def next_queued (songs : List Song) : Option Song :=
  (songs.filter (fun s => s.status == SongStatus.queued)).foldl
    (fun acc s =>
      match acc with
      | Option.none => some s
      | some b => if s.position < b.position then some s else acc)
    Option.none

/-- Vote set of one song (redis set, empty when the key is absent). -/
def votesFor (vs : List (Nat × List String)) (i : Nat) : List String :=
  (vs.lookup i).getD []

/-- Replace (or create) the vote set of one song. -/
def setVotes (vs : List (Nat × List String)) (i : Nat) (l : List String) :
    List (Nat × List String) :=
  match vs with
  | [] => [(i, l)]
  | (j, m) :: t => if j = i then (i, l) :: t else (j, m) :: setVotes t i l

/-- Embedding of `RoomManager.add_vote`: SADD the voter (idempotent). -/
def addVoteSet (vs : List (Nat × List String)) (i : Nat) (u : String) :
    List (Nat × List String) :=
  let cur := votesFor vs i
  setVotes vs i (if u ∈ cur then cur else cur ++ [u])

/-- Embedding of `RoomManager.clear_votes`: DEL the song's vote key. -/
def clearVotes (vs : List (Nat × List String)) (i : Nat) :
    List (Nat × List String) :=
  vs.filter (fun p => p.1 ≠ i)

/-- Embedding of `transition_to_next` (queue.py lines 35-86): select the
next queued song; if found, mark it PLAYING in the table, update the
playback hash via `play` and `set_current_song_db_id`; else `set_idle`.
Stream extraction and the broadcasts do not change this state and are
modelled separately (`Yt`, `WsMgr`). -/
def transition_to_next (now : Int) (st : QState) : QState :=
  match next_queued st.songs with
  | some ns =>
      { st with
        songs := markStatus st.songs ns.id .playing
        hash := RoomMgr.hset (RoomMgr.play st.hash ns.yt_id 0 now)
          "current_song_db_id" (toString ns.id)
        currentDbId := some ns.id
        started := st.started ++ [ns.id] }
  | Option.none =>
      { st with
        hash := RoomMgr.set_idle st.hash now
        currentDbId := Option.none }

/-- Embedding of the `song_ended` endpoint (queue.py lines 364-388): if
the redis-current song row is still PLAYING, mark it PLAYED and clear its
votes; then unconditionally `transition_to_next`. -/
def song_ended (now : Int) (st : QState) : QState :=
  let st₁ :=
    match st.currentDbId with
    | some cid =>
        match findSong st.songs cid with
        | some s₀ =>
            if s₀.status = .playing then
              { st with
                songs := markStatus st.songs cid .played
                votes := clearVotes st.votes cid }
            else st
        | Option.none => st
    | Option.none => st
  transition_to_next now st₁

/-- Embedding of the `host_skip` endpoint (queue.py lines 266-293), after
its host-authorization check: mark the current PLAYING song SKIPPED and
clear its votes, then `transition_to_next`. -/
def host_skip (now : Int) (st : QState) : QState :=
  let st₁ :=
    match st.currentDbId with
    | some cid =>
        match findSong st.songs cid with
        | some s₀ =>
            if s₀.status = .playing then
              { st with
                songs := markStatus st.songs cid .skipped
                votes := clearVotes st.votes cid }
            else st
        | Option.none => st
    | Option.none => st
  transition_to_next now st₁

/-- Response model of `vote_skip` (`VoteSkipResponse` plus the song id it
concerns). -/
structure VoteResp where
  song_id : Nat
  vote_count : Nat
  threshold : ℚ
  participant_count : Nat
  skipped : Bool
  deriving DecidableEq, Repr

/-- Embedding of the `vote_skip` endpoint (queue.py lines 296-361):
SADD the voter, read the cardinality and the participant count, and if
`vote_count / participant_count >= threshold` and the current song row is
still PLAYING, mark it SKIPPED, clear its votes and transition.  Python's
true division of the two counts is the exact rational `mkRat vc pc`.
`Option.none` models the 400 response when no song is playing.  The voter
is an arbitrary member identity; the endpoint makes no host check. -/
def vote_skip (voter : String) (threshold : ℚ) (now : Int) (st : QState) :
    Option (VoteResp × QState) :=
  match st.currentDbId with
  | Option.none => Option.none
  | some cid =>
      let st₁ : QState := { st with votes := addVoteSet st.votes cid voter }
      let vc : Nat := (votesFor st₁.votes cid).length
      let pc : Nat := st₁.participants.length
      let res : Bool × QState :=
        if 0 < pc ∧ threshold ≤ mkRat vc pc then
          match findSong st₁.songs cid with
          | some s₀ =>
              if s₀.status = .playing then
                (true, transition_to_next now
                  { st₁ with
                    songs := markStatus st₁.songs cid .skipped
                    votes := clearVotes st₁.votes cid })
              else (false, st₁)
          | Option.none => (false, st₁)
        else (false, st₁)
      some ({ song_id := cid, vote_count := vc, threshold := threshold,
              participant_count := pc, skipped := res.1 }, res.2)

/-- Status of the song row with the given id, if present. -/
def statusOf (st : QState) (i : Nat) : Option SongStatus :=
  (findSong st.songs i).map (fun s => s.status)

/-- Concrete room for the vote-skip scenarios: four participants (the
first of whom, `a`, is the room host), song 1 currently playing, song 2
queued, no votes cast yet. -/
def voteFixture : QState :=
  { songs := [⟨1, "x", .playing, 1⟩, ⟨2, "y", .queued, 2⟩],
    currentDbId := some 1, votes := [], participants := ["a", "b", "c", "d"],
    hash := [], started := [] }

/-- Concrete room for the double `song_ended` scenario: song 1 playing,
songs 2 and 3 queued behind it. -/
def songEndedFixture : QState :=
  { songs := [⟨1, "a", .playing, 1⟩, ⟨2, "b", .queued, 2⟩, ⟨3, "c", .queued, 3⟩],
    currentDbId := some 1, votes := [], participants := ["p", "q"],
    hash := [], started := [] }

end Queue

namespace Yt

/-- Outcome a caller of `get_or_extract_stream` ends with: a stream URL,
or an `ExtractionError` (in-flight failure, poll timeout, or its own
yt-dlp failure). -/
inductive ExRes where
  | ok (u : String)
  | err
  deriving DecidableEq, Repr

/-- Program counter of one caller of `get_or_extract_stream`
(yt_service.py lines 133-198), one value per `await` boundary:
`start` is the initial cache GET; `sawMiss` the in-flight map check;
`trySetnx` the `SET NX EX` lock attempt; `doRegister` registering the
in-flight event (lock held); `extracting` the yt-dlp subprocess running;
`cacheSet` the cache SET after a successful extraction; `releasing`,
`fireEvent`, `popInflight` the three cleanup awaits of the `finally`
block; `polling k` the poll loop after `k` cache polls; `waitingEvent`
awaiting another local caller's event; `ret` the call returned. -/
inductive PC where
  | start
  | sawMiss
  | trySetnx
  | doRegister
  | extracting (e : Nat)
  | cacheSet (e : Nat) (u : String)
  | releasing (e : Nat) (r : ExRes)
  | fireEvent (e : Nat) (r : ExRes)
  | popInflight (e : Nat) (r : ExRes)
  | polling (k : Nat)
  | waitingEvent (e : Nat)
  | ret (r : ExRes)
  deriving DecidableEq, Repr

/-- Cluster state for one media id: the redis stream-URL cache entry, the
redis extraction lock (expiry not modelled: no holder crashes mid-run),
the per-process in-flight registry entries for this id (process number to
allocated event), which `asyncio.Event`s have been set, an allocator for
event numbers, a ghost count of yt-dlp invocations, and each caller's
program counter. -/
structure St where
  cache : Option String
  lock : Bool
  inflightOf : Nat → Option Nat
  eventFired : Nat → Bool
  nextEvent : Nat
  invocations : Nat
  pcOf : Nat → PC

/-- Initial state: empty cache, free lock, no in-flight entries, every
caller at its first cache check. -/
def init : St :=
  { cache := Option.none, lock := false, inflightOf := fun _ => Option.none,
    eventFired := fun _ => false, nextEvent := 0, invocations := 0,
    pcOf := fun _ => PC.start }

/-- Pointwise update of a program-counter assignment. -/
def updPC (pc : Nat → PC) (i : Nat) (p : PC) : Nat → PC :=
  fun j => if j = i then p else pc j

/-- Replace caller `i`'s program counter. -/
def setPC (s : St) (i : Nat) (pc : PC) : St :=
  { s with pcOf := updPC s.pcOf i pc }

/-- One atomic step of caller `i`.  `res` is the (fixed) outcome yt-dlp
produces for this media id; `pid i` is the server process caller `i` runs
in (the in-flight registry is per process, the cache and lock are
cluster-wide).  A caller at `waitingEvent` whose event has not fired, or
one that has returned, stutters. -/
def step (res : Option String) (pid : Nat → Nat) (s : St) (i : Nat) : St :=
  match s.pcOf i with
  | .start =>
      match s.cache with
      | some u => setPC s i (.ret (.ok u))
      | Option.none => setPC s i .sawMiss
  | .sawMiss =>
      match s.inflightOf (pid i) with
      | some e => setPC s i (.waitingEvent e)
      | Option.none => setPC s i .trySetnx
  | .trySetnx =>
      if s.lock then setPC s i (.polling 0)
      else { setPC s i .doRegister with lock := true }
  | .doRegister =>
      { setPC s i (.extracting s.nextEvent) with
        nextEvent := s.nextEvent + 1
        inflightOf := fun p => if p = pid i then some s.nextEvent else s.inflightOf p
        invocations := s.invocations + 1 }
  | .extracting e =>
      match res with
      | some u => setPC s i (.cacheSet e u)
      | Option.none => setPC s i (.releasing e .err)
  | .cacheSet e u =>
      { setPC s i (.releasing e (.ok u)) with cache := some u }
  | .releasing e r =>
      { setPC s i (.fireEvent e r) with lock := false }
  | .fireEvent e r =>
      { setPC s i (.popInflight e r) with
        eventFired := fun e₁ => if e₁ = e then true else s.eventFired e₁ }
  | .popInflight _e r =>
      { setPC s i (.ret r) with
        inflightOf := fun p => if p = pid i then Option.none else s.inflightOf p }
  | .polling k =>
      match s.cache with
      | some u => setPC s i (.ret (.ok u))
      | Option.none =>
          if k + 1 = 50 then setPC s i (.ret .err)
          else setPC s i (.polling (k + 1))
  | .waitingEvent e =>
      if s.eventFired e then
        match s.cache with
        | some u => setPC s i (.ret (.ok u))
        | Option.none => setPC s i (.ret .err)
      else s
  | .ret _ => s

/-- Run a schedule: an arbitrary interleaving of caller steps. -/
def exec (res : Option String) (pid : Nat → Nat) (sched : List Nat) : St :=
  sched.foldl (step res pid) init

/-- The program counters at which a caller holds the extraction lock. -/
def inRegion : PC → Bool
  | .doRegister | .extracting _ | .cacheSet _ _ | .releasing _ _ => true
  | _ => false

/-- The program counter at which the yt-dlp subprocess is running. -/
def isExtracting : PC → Bool
  | .extracting _ => true
  | _ => false

/-- Mutual exclusion: at most one caller has a running extraction
subprocess for this media id. -/
def mutualExclusion (s : St) : Prop :=
  ∀ i j, isExtracting (s.pcOf i) → isExtracting (s.pcOf j) → i = j

/-- Every caller that returned successfully returned the URL yt-dlp
produces for this media id (so all successful callers agree, and if
yt-dlp fails no caller returns success). -/
def okAgree (res : Option String) (s : St) : Prop :=
  ∀ i v, s.pcOf i = .ret (.ok v) → res = some v

/-- The cache poll loop of a lock-losing caller never exceeds the
configured `LOCK_POLL_MAX` of 50 polls. -/
def pollBounded (s : St) : Prop :=
  ∀ i k, s.pcOf i = .polling k → k < 50

/-- Inductive invariant over the claim-relevant state components (the
program counters, the lock and the cache): at most one caller in the
lock-holding region, the lock is held exactly when the region is
occupied, the cache only ever holds the yt-dlp result, callers carrying
or returning a success carry that result, and poll counters stay below
the bound. -/
structure InvV (res : Option String) (pc : Nat → PC) (lk : Bool)
    (ca : Option String) : Prop where
  excl : ∀ i j, inRegion (pc i) → inRegion (pc j) → i = j
  lockRegion : lk = true ↔ ∃ i, inRegion (pc i)
  cacheRes : ca = Option.none ∨ ca = res
  okRes : ∀ i v, pc i = .ret (.ok v) → res = some v
  carryRes : ∀ i e v,
    (pc i = .cacheSet e v ∨ pc i = .releasing e (.ok v) ∨
     pc i = .fireEvent e (.ok v) ∨ pc i = .popInflight e (.ok v)) →
    res = some v
  pollLt : ∀ i k, pc i = .polling k → k < 50

/-- The invariant instantiated at a full cluster state. -/
def Inv (res : Option String) (s : St) : Prop :=
  InvV res s.pcOf s.lock s.cache

/-- The schedule exhibiting a second yt-dlp invocation: caller 1 checks
the cache (miss) first, caller 0 then runs its whole call to completion
(extracting and caching the URL), and caller 1, which never re-checks the
cache before its lock attempt, acquires the freed lock and extracts
again. -/
def raceSched : List Nat :=
  [1] ++ List.replicate 9 0 ++ List.replicate 8 1

end Yt

/-! Theorems.  Helper lemmas first, then one theorem per claim (with its
counterexample and witness theorems where applicable). -/

theorem lookup_hset_self (h : RHash) (k v : String) :
    (RoomMgr.hset h k v).lookup k = some v := by
  induction h with
  | nil => simp [RoomMgr.hset, List.lookup]
  | cons kv t ih =>
      obtain ⟨k₀, v₀⟩ := kv
      by_cases hk : k₀ = k
      · subst hk; simp [RoomMgr.hset, List.lookup]
      · have hkk : (k == k₀) = false := beq_eq_false_iff_ne.mpr (Ne.symm hk)
        simp [RoomMgr.hset, hk, List.lookup, hkk, ih]

theorem lookup_hset_other (h : RHash) (k v k₁ : String) (hne : k₁ ≠ k) :
    (RoomMgr.hset h k v).lookup k₁ = h.lookup k₁ := by
  have hkk : (k₁ == k) = false := beq_eq_false_iff_ne.mpr hne
  induction h with
  | nil => simp [RoomMgr.hset, List.lookup, hkk]
  | cons kv t ih =>
      obtain ⟨k₀, v₀⟩ := kv
      by_cases hk : k₀ = k
      · subst hk; simp [RoomMgr.hset, List.lookup, hkk]
      · by_cases hk₁ : k₁ = k₀
        · subst hk₁; simp [RoomMgr.hset, hk, List.lookup]
        · have hkk₁ : (k₁ == k₀) = false := beq_eq_false_iff_ne.mpr hk₁
          simp [RoomMgr.hset, hk, List.lookup, hkk₁, ih]

theorem play_lookup_status (h : RHash) (song : String) (p now : Int) :
    (RoomMgr.play h song p now).lookup "status" = some "playing" := by
  unfold RoomMgr.play RoomMgr.update_playback_state
  simp only [List.foldl]
  rw [lookup_hset_other _ _ _ _ (by decide), lookup_hset_other _ _ _ _ (by decide),
      lookup_hset_other _ _ _ _ (by decide), lookup_hset_other _ _ _ _ (by decide),
      lookup_hset_self]

theorem play_lookup_position (h : RHash) (song : String) (p now : Int) :
    (RoomMgr.play h song p now).lookup "position_ms" = some (toString p) := by
  unfold RoomMgr.play RoomMgr.update_playback_state
  simp only [List.foldl]
  rw [lookup_hset_other _ _ _ _ (by decide), lookup_hset_other _ _ _ _ (by decide),
      lookup_hset_self]

theorem play_lookup_updated (h : RHash) (song : String) (p now : Int) :
    (RoomMgr.play h song p now).lookup "updated_at" = some (toString now) := by
  unfold RoomMgr.play RoomMgr.update_playback_state
  simp only [List.foldl]
  rw [lookup_hset_other _ _ _ _ (by decide), lookup_hset_self]

theorem pause_lookup_status (h : RHash) (p now : Int) :
    (RoomMgr.pause_at h p now).lookup "status" = some "paused" := by
  unfold RoomMgr.pause_at RoomMgr.update_playback_state
  simp only [List.foldl]
  rw [lookup_hset_other _ _ _ _ (by decide), lookup_hset_other _ _ _ _ (by decide),
      lookup_hset_self]

theorem pause_lookup_position (h : RHash) (p now : Int) :
    (RoomMgr.pause_at h p now).lookup "position_ms" = some (toString p) := by
  unfold RoomMgr.pause_at RoomMgr.update_playback_state
  simp only [List.foldl]
  rw [lookup_hset_other _ _ _ _ (by decide), lookup_hset_self]

theorem seek_lookup_status (h : RHash) (p now : Int) :
    (RoomMgr.seek h p now).lookup "status" = h.lookup "status" := by
  unfold RoomMgr.seek RoomMgr.update_playback_state
  simp only [List.foldl]
  rw [lookup_hset_other _ _ _ _ (by decide), lookup_hset_other _ _ _ _ (by decide)]

theorem set_idle_lookup_status (h : RHash) (now : Int) :
    (RoomMgr.set_idle h now).lookup "status" = some "idle" := by
  unfold RoomMgr.set_idle RoomMgr.update_playback_state
  simp only [List.foldl]
  rw [lookup_hset_other _ _ _ _ (by decide), lookup_hset_other _ _ _ _ (by decide),
      lookup_hset_other _ _ _ _ (by decide), lookup_hset_other _ _ _ _ (by decide),
      lookup_hset_self]

theorem set_idle_lookup_song (h : RHash) (now : Int) :
    (RoomMgr.set_idle h now).lookup "current_song_id" = some "" := by
  unfold RoomMgr.set_idle RoomMgr.update_playback_state
  simp only [List.foldl]
  rw [lookup_hset_other _ _ _ _ (by decide), lookup_hset_other _ _ _ _ (by decide),
      lookup_hset_other _ _ _ _ (by decide), lookup_hset_self]

theorem set_idle_lookup_position (h : RHash) (now : Int) :
    (RoomMgr.set_idle h now).lookup "position_ms" = some "0" := by
  unfold RoomMgr.set_idle RoomMgr.update_playback_state
  simp only [List.foldl]
  rw [lookup_hset_other _ _ _ _ (by decide), lookup_hset_self]

/-- C10: for a room whose playback state was never stored (the hash key
is absent, as it also is right after `initialize_room` deletes it),
`get_room_state` returns the default snapshot with status idle, empty
current song, zero position and timestamp, and speed 1.0 — a non-empty
result, not a failure. -/
theorem c10_default_state :
    RoomMgr.get_room_state RoomMgr.initialize_room_state = RoomMgr.default_state ∧
    RoomMgr.get_room_state [] =
      [("status", PyVal.str "idle"), ("current_song_id", PyVal.str ""),
       ("position_ms", PyVal.int 0), ("updated_at", PyVal.int 0),
       ("speed", PyVal.rat 1)] ∧
    (RoomMgr.get_room_state []).length = 5 :=
  ⟨rfl, rfl, rfl⟩

/-- C4 counterexample: the claim fails on `seek`.  From the reachable
idle state produced by `set_idle`, a host `seek` to 5000 (the player-seek
endpoint performs no status check) leaves `status = idle` while setting
`position_ms = 5000`, violating the invariant. -/
theorem c4_counterexample :
    ¬ RoomMgr.idleInv (RoomMgr.seek (RoomMgr.set_idle [] 0) 5000 1) := by decide

/-- C4 amended: the idle invariant `status = idle implies current song
empty and position 0` holds after every `play`, `pause_at` and `set_idle`
applied to any state whatsoever, and after `seek` applied to any state
whose status is not idle; `seek` from an idle state is the one operation
that breaks it. -/
theorem c4_idle_invariant (h : RHash) (song : String) (p now : Int) :
    RoomMgr.idleInv (RoomMgr.play h song p now) ∧
    RoomMgr.idleInv (RoomMgr.pause_at h p now) ∧
    RoomMgr.idleInv (RoomMgr.set_idle h now) ∧
    (h.lookup "status" ≠ some "idle" → RoomMgr.idleInv (RoomMgr.seek h p now)) := by
  refine ⟨?_, ?_, ?_, ?_⟩
  · intro hst
    rw [play_lookup_status] at hst
    exact absurd hst (by decide)
  · intro hst
    rw [pause_lookup_status] at hst
    exact absurd hst (by decide)
  · intro _
    exact ⟨set_idle_lookup_song h now, set_idle_lookup_position h now⟩
  · intro hne hst
    rw [seek_lookup_status] at hst
    exact absurd hst hne

/-- C4 witness: the amended invariant theorem applied to a concrete
state.  The unconditional conjuncts are instantiated at the idle state
produced by `set_idle` (showing they need no non-idle hypothesis), and
the seek conjunct at the empty hash, whose status is absent and hence
not idle. -/
theorem c4_idle_invariant_witness :
    RoomMgr.idleInv (RoomMgr.play (RoomMgr.set_idle [] 0) "s" 7 3) ∧
    RoomMgr.idleInv (RoomMgr.pause_at (RoomMgr.set_idle [] 0) 7 3) ∧
    RoomMgr.idleInv (RoomMgr.set_idle (RoomMgr.set_idle [] 0) 3) ∧
    RoomMgr.idleInv (RoomMgr.seek [] 7 3) :=
  ⟨(c4_idle_invariant (RoomMgr.set_idle [] 0) "s" 7 3).1,
   (c4_idle_invariant (RoomMgr.set_idle [] 0) "s" 7 3).2.1,
   (c4_idle_invariant (RoomMgr.set_idle [] 0) "s" 7 3).2.2.1,
   (c4_idle_invariant [] "s" 7 3).2.2.2 (by decide)⟩

/-- C6: a state playing from position 5000 anchored at `T0` has
effective position 8000 when queried at `T0 + 3000`; `pause_at 8000`
stores status paused and position 8000, and the effective position of a
paused state is 8000 no matter how much time elapses after the pause.
The drift-correction formula itself is modelled from the spec (its reader
is the client resync path, outside this backend). -/
theorem c6_drift_correction (h : RHash) (T0 T1 t : Int) :
    RoomMgr.effectivePosition "playing" 5000 T0 (T0 + 3000) = 8000 ∧
    ((RoomMgr.play h "song" 5000 T0).lookup "status" = some "playing" ∧
     (RoomMgr.play h "song" 5000 T0).lookup "position_ms" = some "5000" ∧
     (RoomMgr.play h "song" 5000 T0).lookup "updated_at" = some (toString T0)) ∧
    ((RoomMgr.pause_at h 8000 T1).lookup "status" = some "paused" ∧
     (RoomMgr.pause_at h 8000 T1).lookup "position_ms" = some "8000") ∧
    RoomMgr.effectivePosition "paused" 8000 T1 t = 8000 := by
  refine ⟨?_, ⟨play_lookup_status h "song" 5000 T0, ?_, play_lookup_updated h "song" 5000 T0⟩,
    ⟨pause_lookup_status h 8000 T1, ?_⟩, ?_⟩
  · unfold RoomMgr.effectivePosition
    rw [if_pos rfl]
    ring
  · rw [play_lookup_position]
    rfl
  · rw [pause_lookup_position]
    rfl
  · unfold RoomMgr.effectivePosition
    rw [if_neg (by decide)]

/-- C5 counterexample: the bus message envelope's third key is
`room_slug`, not `room` as the claim's wire contract states, and the
`vote_update` payload's first field is `song_id`, not `item_id`. -/
theorem c5_counterexample :
    WsMgr.keysOf (WsMgr.publish_event_message "r" "vote_update"
        (WsMgr.vote_update_data 1 2 (1 / 2) 4 true)) = ["type", "data", "room_slug"] ∧
    "room" ∉ WsMgr.keysOf (WsMgr.publish_event_message "r" "vote_update"
        (WsMgr.vote_update_data 1 2 (1 / 2) 4 true)) ∧
    "item_id" ∉ WsMgr.keysOf (WsMgr.vote_update_data 1 2 (1 / 2) 4 true) := by
  refine ⟨rfl, ?_, ?_⟩ <;> decide

/-- C5 amended: every published event is serialized as a dict with keys
`type`, `data`, `room_slug` (in that order); the event types appearing at
the publish call sites are among the contract's five (four are used,
`participant_left` is present in the contract but its publish is
commented out); and the `vote_update` payload carries exactly the fields
`song_id`, `vote_count`, `threshold`, `participant_count`, `skipped`. -/
theorem c5_event_schema (room etype : String) (d : List (String × PyVal))
    (sid vc pc : Nat) (th : ℚ) (sk : Bool) :
    WsMgr.keysOf (WsMgr.publish_event_message room etype d) =
      ["type", "data", "room_slug"] ∧
    (∀ e ∈ WsMgr.published_event_types, e ∈ WsMgr.spec_event_types) ∧
    WsMgr.keysOf (WsMgr.vote_update_data sid vc th pc sk) =
      ["song_id", "vote_count", "threshold", "participant_count", "skipped"] :=
  ⟨rfl, by decide, rfl⟩

/-- C7: in the four-participant room with threshold one half, the first
vote (tally 1 of 4) does not skip and song 1 keeps playing; a second vote
by a distinct voter (tally 2 of 4, reaching the threshold) marks song 1
skipped, advances to song 2, and leaves song 1's vote set empty
immediately after the skip. -/
theorem c7_vote_threshold :
    (Queue.vote_skip "u1" (mkRat 1 2) 10 Queue.voteFixture).map
        (fun r => (r.1.skipped, r.1.vote_count, Queue.statusOf r.2 1)) =
      some (false, 1, some .playing) ∧
    ((Queue.vote_skip "u1" (mkRat 1 2) 10 Queue.voteFixture).bind
        (fun r => Queue.vote_skip "u2" (mkRat 1 2) 20 r.2)).map
        (fun r => (r.1.skipped, r.1.vote_count, Queue.votesFor r.2.votes 1,
          Queue.statusOf r.2 1, Queue.statusOf r.2 2)) =
      some (true, 2, [], some .skipped, some .playing) := by
  constructor <;> decide

/-- C3 counterexample: participant `a` is the room host of the fixture,
the tally after the host's vote is 1 of 4, below the threshold of one
half — yet the claim requires a forced transition on a host vote.  The
endpoint leaves song 1 playing and song 2 queued (`vote_skip` makes no
host check at all; its embedding takes no host identity). -/
theorem c3_counterexample :
    (Queue.vote_skip "a" (mkRat 1 2) 10 Queue.voteFixture).map
        (fun r => (r.1.skipped, Queue.statusOf r.2 1, Queue.statusOf r.2 2)) =
      some (false, some .playing, some .queued) := by decide

/-- C3 amended: the voter's identity (host or not) plays no role in
`vote_skip`: the outcome is skipped exactly when the participant count is
positive, the post-vote tally over the participant count reaches the
threshold, and the current song row is still playing.  A host-forced,
threshold-bypassing skip exists only as the separate `host_skip`
endpoint. -/
theorem c3_vote_skip_threshold_only (voter : String) (threshold : ℚ) (now : Int)
    (st : Queue.QState) (cid : Nat) (hcid : st.currentDbId = some cid) :
    ∃ r, Queue.vote_skip voter threshold now st = some r ∧
      (r.1.skipped = true ↔
        (0 < st.participants.length ∧
         threshold ≤
           mkRat ((Queue.votesFor (Queue.addVoteSet st.votes cid voter) cid).length)
             st.participants.length ∧
         Queue.statusOf st cid = some .playing)) := by
  unfold Queue.vote_skip
  rw [hcid]
  refine ⟨_, rfl, ?_⟩
  dsimp only
  by_cases hcond : 0 < st.participants.length ∧
      threshold ≤
        mkRat ((Queue.votesFor (Queue.addVoteSet st.votes cid voter) cid).length)
          st.participants.length
  · rw [if_pos hcond]
    cases hfind : Queue.findSong st.songs cid with
    | none => simp [Queue.statusOf, hfind, hcond]
    | some s₀ =>
        by_cases hst : s₀.status = .playing
        · simp [Queue.statusOf, hfind, hst, hcond]
        · simp [Queue.statusOf, hfind, hst, hcond]
  · rw [if_neg hcond]
    constructor
    · intro hfalse
      exact absurd hfalse (by simp)
    · intro hc
      exact absurd ⟨hc.1, hc.2.1⟩ hcond

/-- C3 witness: the amended characterization applied to the concrete
fixture with the host voting: the tally 1 of 4 is below one half, so the
right side is false and the vote does not skip. -/
theorem c3_vote_skip_threshold_only_witness :
    Queue.voteFixture.currentDbId = some 1 ∧
    (∃ r, Queue.vote_skip "a" (mkRat 1 2) 10 Queue.voteFixture = some r ∧
      (r.1.skipped = true ↔
        (0 < Queue.voteFixture.participants.length ∧
         mkRat 1 2 ≤
           mkRat ((Queue.votesFor (Queue.addVoteSet Queue.voteFixture.votes 1 "a") 1).length)
             Queue.voteFixture.participants.length ∧
         Queue.statusOf Queue.voteFixture 1 = some .playing))) :=
  ⟨rfl, c3_vote_skip_threshold_only "a" (mkRat 1 2) 10 Queue.voteFixture 1 rfl⟩

/-- C1: evaluation of the code at the failing input.  Two back-to-back
`song_ended` signals (one serialization of two concurrent signals for
song 1) advance the queue twice: the first transition starts song 2, the
second signal finds song 2 playing, marks it played and starts song 3.
The ghost trace records two playback transitions where the claim requires
exactly one. -/
theorem c1_double_advance :
    Queue.statusOf (Queue.song_ended 20 (Queue.song_ended 10 Queue.songEndedFixture)) 1 =
      some .played ∧
    Queue.statusOf (Queue.song_ended 20 (Queue.song_ended 10 Queue.songEndedFixture)) 2 =
      some .played ∧
    Queue.statusOf (Queue.song_ended 20 (Queue.song_ended 10 Queue.songEndedFixture)) 3 =
      some .playing ∧
    (Queue.song_ended 20 (Queue.song_ended 10 Queue.songEndedFixture)).started = [2, 3] := by
  refine ⟨?_, ?_, ?_, ?_⟩ <;> decide

/-- C9: evaluation of the code at the failing trace.  Connect websocket
1 to room `r`, disconnect it (which only schedules the unsubscribe task),
connect websocket 2 (the room is still in the subscribed set, so no
subscribe happens), then let the pending task run: the process ends up
with an attached local connection for `r` but no subscription, so a
publish by another process is never received here. -/
theorem c9_reconnect_race :
    (WsMgr.run_unsubscribe
        (WsMgr.connect (WsMgr.disconnect (WsMgr.connect WsMgr.init 1 "r") 1 "r") 2 "r")
        "r").active.lookup "r" = some [2] ∧
    (WsMgr.run_unsubscribe
        (WsMgr.connect (WsMgr.disconnect (WsMgr.connect WsMgr.init 1 "r") 1 "r") 2 "r")
        "r").subscribed = [] ∧
    WsMgr.receivesPublish
        (WsMgr.run_unsubscribe
          (WsMgr.connect (WsMgr.disconnect (WsMgr.connect WsMgr.init 1 "r") 1 "r") 2 "r")
          "r") "r" = false ∧
    WsMgr.hasLocalConns
        (WsMgr.run_unsubscribe
          (WsMgr.connect (WsMgr.disconnect (WsMgr.connect WsMgr.init 1 "r") 1 "r") 2 "r")
          "r") "r" = true := by
  refine ⟨?_, ?_, ?_, ?_⟩ <;> decide

theorem rl_check_keep_all (st : List (Int × Nat)) (now : Int) (salt : Nat)
    (limit window : Int) (hkeep : ∀ e ∈ st, now - window < e.1)
    (hmem : (now, salt) ∉ st) :
    RateLim.check_rate_limit st now salt limit window =
      (decide (((st ++ [(now, salt)]).length : Int) ≤ limit), st ++ [(now, salt)]) := by
  unfold RateLim.check_rate_limit
  have hfilter : st.filter (fun e => decide (¬ (0 ≤ e.1 ∧ e.1 ≤ now - window))) = st := by
    apply List.filter_eq_self.mpr
    intro e he
    have hgt := hkeep e he
    simp only [decide_eq_true_eq]
    omega
  rw [hfilter]
  simp only [if_neg hmem]

theorem rl_check_drop_all (st : List (Int × Nat)) (now : Int) (salt : Nat)
    (limit window : Int) (hdrop : ∀ e ∈ st, 0 ≤ e.1 ∧ e.1 ≤ now - window) :
    RateLim.check_rate_limit st now salt limit window =
      (decide ((([(now, salt)] : List (Int × Nat)).length : Int) ≤ limit), [(now, salt)]) := by
  unfold RateLim.check_rate_limit
  have hfilter : st.filter (fun e => decide (¬ (0 ≤ e.1 ∧ e.1 ≤ now - window))) = [] := by
    apply List.filter_eq_nil_iff.mpr
    intro e he
    have hle := hdrop e he
    simp only [decide_eq_true_eq]
    omega
  rw [hfilter]
  simp only [List.not_mem_nil, if_false, List.nil_append]

/-- C8: with the queue-add configuration of 5 requests per 30-second
window, for any six requests at increasing timestamps all inside one
window, the first five are admitted and the sixth is rejected; a seventh
request made once the window has elapsed past all of them is admitted
again (the individual ZSET entries have expired out of the window). -/
theorem c8_rate_limiter (t1 t2 t3 t4 t5 t6 t7 : Int)
    (h1 : 0 ≤ t1) (h12 : t1 < t2) (h23 : t2 < t3) (h34 : t3 < t4) (h45 : t4 < t5)
    (h56 : t5 < t6) (hwin : t6 - t1 < 30) (hafter : t6 + 30 ≤ t7) :
    (RateLim.run_rate_limit RateLim.queue_add_limit RateLim.queue_add_window
        [(t1, 1), (t2, 2), (t3, 3), (t4, 4), (t5, 5), (t6, 6), (t7, 7)]).1 =
      [true, true, true, true, true, false, true] := by
  have e1 : RateLim.check_rate_limit [] t1 1 5 30 =
      (decide ((([(t1, 1)] : List (Int × Nat)).length : Int) ≤ 5), [(t1, 1)]) := by
    exact rl_check_keep_all [] t1 1 5 30 (by intro e he; simp at he) (by simp)
  have e2 : RateLim.check_rate_limit [(t1, 1)] t2 2 5 30 =
      (decide ((([(t1, 1), (t2, 2)] : List (Int × Nat)).length : Int) ≤ 5),
        [(t1, 1), (t2, 2)]) := by
    exact rl_check_keep_all [(t1, 1)] t2 2 5 30
      (by
        intro e he
        simp only [List.mem_singleton] at he
        subst he; dsimp; omega)
      (by simp)
  have e3 : RateLim.check_rate_limit [(t1, 1), (t2, 2)] t3 3 5 30 =
      (decide ((([(t1, 1), (t2, 2), (t3, 3)] : List (Int × Nat)).length : Int) ≤ 5),
        [(t1, 1), (t2, 2), (t3, 3)]) := by
    exact rl_check_keep_all [(t1, 1), (t2, 2)] t3 3 5 30
      (by
        intro e he
        simp only [List.mem_cons, List.not_mem_nil, or_false] at he
        rcases he with rfl | rfl <;> dsimp <;> omega)
      (by simp)
  have e4 : RateLim.check_rate_limit [(t1, 1), (t2, 2), (t3, 3)] t4 4 5 30 =
      (decide ((([(t1, 1), (t2, 2), (t3, 3), (t4, 4)] : List (Int × Nat)).length : Int) ≤ 5),
        [(t1, 1), (t2, 2), (t3, 3), (t4, 4)]) := by
    exact rl_check_keep_all [(t1, 1), (t2, 2), (t3, 3)] t4 4 5 30
      (by
        intro e he
        simp only [List.mem_cons, List.not_mem_nil, or_false] at he
        rcases he with rfl | rfl | rfl <;> dsimp <;> omega)
      (by simp)
  have e5 : RateLim.check_rate_limit [(t1, 1), (t2, 2), (t3, 3), (t4, 4)] t5 5 5 30 =
      (decide ((([(t1, 1), (t2, 2), (t3, 3), (t4, 4), (t5, 5)] :
          List (Int × Nat)).length : Int) ≤ 5),
        [(t1, 1), (t2, 2), (t3, 3), (t4, 4), (t5, 5)]) := by
    exact rl_check_keep_all [(t1, 1), (t2, 2), (t3, 3), (t4, 4)] t5 5 5 30
      (by
        intro e he
        simp only [List.mem_cons, List.not_mem_nil, or_false] at he
        rcases he with rfl | rfl | rfl | rfl <;> dsimp <;> omega)
      (by simp)
  have e6 : RateLim.check_rate_limit [(t1, 1), (t2, 2), (t3, 3), (t4, 4), (t5, 5)] t6 6 5 30 =
      (decide ((([(t1, 1), (t2, 2), (t3, 3), (t4, 4), (t5, 5), (t6, 6)] :
          List (Int × Nat)).length : Int) ≤ 5),
        [(t1, 1), (t2, 2), (t3, 3), (t4, 4), (t5, 5), (t6, 6)]) := by
    exact rl_check_keep_all [(t1, 1), (t2, 2), (t3, 3), (t4, 4), (t5, 5)] t6 6 5 30
      (by
        intro e he
        simp only [List.mem_cons, List.not_mem_nil, or_false] at he
        rcases he with rfl | rfl | rfl | rfl | rfl <;> dsimp <;> omega)
      (by simp)
  have e7 : RateLim.check_rate_limit
      [(t1, 1), (t2, 2), (t3, 3), (t4, 4), (t5, 5), (t6, 6)] t7 7 5 30 =
      (decide ((([(t7, 7)] : List (Int × Nat)).length : Int) ≤ 5), [(t7, 7)]) := by
    exact rl_check_drop_all [(t1, 1), (t2, 2), (t3, 3), (t4, 4), (t5, 5), (t6, 6)] t7 7 5 30
      (by
        intro e he
        simp only [List.mem_cons, List.not_mem_nil, or_false] at he
        rcases he with rfl | rfl | rfl | rfl | rfl | rfl <;> dsimp <;> omega)
  unfold RateLim.run_rate_limit RateLim.queue_add_limit RateLim.queue_add_window
  simp only [List.foldl_cons, List.foldl_nil]
  rw [e1]
  dsimp only
  rw [e2]
  dsimp only
  rw [e3]
  dsimp only
  rw [e4]
  dsimp only
  rw [e5]
  dsimp only
  rw [e6]
  dsimp only
  rw [e7]
  dsimp only
  norm_num

/-- C8 witness: the rate-limiter theorem applied to requests at times 0
through 5 and a final request at 36. -/
theorem c8_rate_limiter_witness :
    (RateLim.run_rate_limit RateLim.queue_add_limit RateLim.queue_add_window
        [((0 : Int), 1), (1, 2), (2, 3), (3, 4), (4, 5), (5, 6), (36, 7)]).1 =
      [true, true, true, true, true, false, true] :=
  c8_rate_limiter 0 1 2 3 4 5 36 (by decide) (by decide) (by decide) (by decide)
    (by decide) (by decide) (by decide) (by decide)

theorem updPC_same (pc : Nat → Yt.PC) (i : Nat) (p : Yt.PC) :
    Yt.updPC pc i p i = p := by
  simp [Yt.updPC]

theorem updPC_other (pc : Nat → Yt.PC) (i j : Nat) (p : Yt.PC) (h : j ≠ i) :
    Yt.updPC pc i p j = pc j := by
  simp [Yt.updPC, h]

theorem invV_update_nonregion (res : Option String) (pc : Nat → Yt.PC) (lk : Bool)
    (ca : Option String) (i : Nat) (p : Yt.PC) (h : Yt.InvV res pc lk ca)
    (hold : Yt.inRegion (pc i) = false) (hnew : Yt.inRegion p = false)
    (hok : ∀ v, p = .ret (.ok v) → res = some v)
    (hcarry : ∀ e v, p = .fireEvent e (.ok v) ∨ p = .popInflight e (.ok v) → res = some v)
    (hpoll : ∀ k, p = .polling k → k < 50) :
    Yt.InvV res (Yt.updPC pc i p) lk ca := by
  constructor
  · intro a b ha hb
    by_cases hai : a = i
    · subst hai
      rw [updPC_same] at ha
      rw [hnew] at ha
      cases ha
    · by_cases hbi : b = i
      · subst hbi
        rw [updPC_same] at hb
        rw [hnew] at hb
        cases hb
      · rw [updPC_other _ _ _ _ hai] at ha
        rw [updPC_other _ _ _ _ hbi] at hb
        exact h.excl a b ha hb
  · constructor
    · intro hlk
      obtain ⟨a, ha⟩ := h.lockRegion.mp hlk
      have hai : a ≠ i := by
        intro hcontra
        rw [hcontra, hold] at ha
        cases ha
      exact ⟨a, by rw [updPC_other _ _ _ _ hai]; exact ha⟩
    · rintro ⟨a, ha⟩
      by_cases hai : a = i
      · subst hai
        rw [updPC_same] at ha
        rw [hnew] at ha
        cases ha
      · rw [updPC_other _ _ _ _ hai] at ha
        exact h.lockRegion.mpr ⟨a, ha⟩
  · exact h.cacheRes
  · intro a v ha
    by_cases hai : a = i
    · subst hai
      rw [updPC_same] at ha
      exact hok v ha
    · rw [updPC_other _ _ _ _ hai] at ha
      exact h.okRes a v ha
  · intro a e v ha
    by_cases hai : a = i
    · subst hai
      rw [updPC_same] at ha
      rcases ha with h1 | h1 | h1 | h1
      · rw [h1] at hnew; cases hnew
      · rw [h1] at hnew; cases hnew
      · exact hcarry e v (Or.inl h1)
      · exact hcarry e v (Or.inr h1)
    · rw [updPC_other _ _ _ _ hai] at ha
      exact h.carryRes a e v ha
  · intro a k ha
    by_cases hai : a = i
    · subst hai
      rw [updPC_same] at ha
      exact hpoll k ha
    · rw [updPC_other _ _ _ _ hai] at ha
      exact h.pollLt a k ha

theorem invV_update_region (res : Option String) (pc : Nat → Yt.PC) (lk : Bool)
    (ca ca₁ : Option String) (i : Nat) (p : Yt.PC) (h : Yt.InvV res pc lk ca)
    (hold : Yt.inRegion (pc i) = true) (hnew : Yt.inRegion p = true)
    (hca₁ : ca₁ = Option.none ∨ ca₁ = res)
    (hcarry : ∀ e v, p = .cacheSet e v ∨ p = .releasing e (.ok v) → res = some v) :
    Yt.InvV res (Yt.updPC pc i p) lk ca₁ := by
  constructor
  · intro a b ha hb
    by_cases hai : a = i
    · by_cases hbi : b = i
      · rw [hai, hbi]
      · rw [updPC_other _ _ _ _ hbi] at hb
        exact absurd (h.excl b i hb hold) hbi
    · rw [updPC_other _ _ _ _ hai] at ha
      exact absurd (h.excl a i ha hold) hai
  · constructor
    · intro _
      exact ⟨i, by rw [updPC_same]; exact hnew⟩
    · intro _
      exact h.lockRegion.mpr ⟨i, hold⟩
  · exact hca₁
  · intro a v ha
    by_cases hai : a = i
    · subst hai
      rw [updPC_same] at ha
      rw [ha] at hnew
      cases hnew
    · rw [updPC_other _ _ _ _ hai] at ha
      exact h.okRes a v ha
  · intro a e v ha
    by_cases hai : a = i
    · subst hai
      rw [updPC_same] at ha
      rcases ha with h1 | h1 | h1 | h1
      · exact hcarry e v (Or.inl h1)
      · exact hcarry e v (Or.inr h1)
      · rw [h1] at hnew; cases hnew
      · rw [h1] at hnew; cases hnew
    · rw [updPC_other _ _ _ _ hai] at ha
      exact h.carryRes a e v ha
  · intro a k ha
    by_cases hai : a = i
    · subst hai
      rw [updPC_same] at ha
      rw [ha] at hnew
      cases hnew
    · rw [updPC_other _ _ _ _ hai] at ha
      exact h.pollLt a k ha

theorem invV_acquire (res : Option String) (pc : Nat → Yt.PC) (ca : Option String)
    (i : Nat) (h : Yt.InvV res pc false ca) (hold : pc i = .trySetnx) :
    Yt.InvV res (Yt.updPC pc i .doRegister) true ca := by
  have hno : ∀ a, ¬ (Yt.inRegion (pc a) = true) := by
    intro a ha
    have := h.lockRegion.mpr ⟨a, ha⟩
    cases this
  constructor
  · intro a b ha hb
    by_cases hai : a = i
    · by_cases hbi : b = i
      · rw [hai, hbi]
      · rw [updPC_other _ _ _ _ hbi] at hb
        exact absurd hb (hno b)
    · rw [updPC_other _ _ _ _ hai] at ha
      exact absurd ha (hno a)
  · constructor
    · intro _
      exact ⟨i, by rw [updPC_same]; rfl⟩
    · intro _
      rfl
  · exact h.cacheRes
  · intro a v ha
    by_cases hai : a = i
    · subst hai
      rw [updPC_same] at ha
      cases ha
    · rw [updPC_other _ _ _ _ hai] at ha
      exact h.okRes a v ha
  · intro a e v ha
    by_cases hai : a = i
    · subst hai
      rw [updPC_same] at ha
      rcases ha with h1 | h1 | h1 | h1 <;> cases h1
    · rw [updPC_other _ _ _ _ hai] at ha
      exact h.carryRes a e v ha
  · intro a k ha
    by_cases hai : a = i
    · subst hai
      rw [updPC_same] at ha
      cases ha
    · rw [updPC_other _ _ _ _ hai] at ha
      exact h.pollLt a k ha

theorem invV_release (res : Option String) (pc : Nat → Yt.PC) (lk : Bool)
    (ca : Option String) (i : Nat) (e : Nat) (r : Yt.ExRes)
    (h : Yt.InvV res pc lk ca) (hold : pc i = .releasing e r) :
    Yt.InvV res (Yt.updPC pc i (.fireEvent e r)) false ca := by
  have hiR : Yt.inRegion (pc i) = true := by rw [hold]; rfl
  have hnone : ∀ a, ¬ (Yt.inRegion (Yt.updPC pc i (.fireEvent e r) a) = true) := by
    intro a ha
    by_cases hai : a = i
    · subst hai
      rw [updPC_same] at ha
      cases ha
    · rw [updPC_other _ _ _ _ hai] at ha
      exact hai (h.excl a i ha hiR)
  constructor
  · intro a b ha hb
    exact absurd ha (hnone a)
  · constructor
    · intro hf
      cases hf
    · rintro ⟨a, ha⟩
      exact absurd ha (hnone a)
  · exact h.cacheRes
  · intro a v ha
    by_cases hai : a = i
    · subst hai
      rw [updPC_same] at ha
      cases ha
    · rw [updPC_other _ _ _ _ hai] at ha
      exact h.okRes a v ha
  · intro a e₁ v ha
    by_cases hai : a = i
    · subst hai
      rw [updPC_same] at ha
      rcases ha with h1 | h1 | h1 | h1
      · cases h1
      · cases h1
      · cases h1
        exact h.carryRes _ e v (Or.inr (Or.inl hold))
      · cases h1
    · rw [updPC_other _ _ _ _ hai] at ha
      exact h.carryRes a e₁ v ha
  · intro a k ha
    by_cases hai : a = i
    · subst hai
      rw [updPC_same] at ha
      cases ha
    · rw [updPC_other _ _ _ _ hai] at ha
      exact h.pollLt a k ha

theorem inv_init (res : Option String) : Yt.Inv res Yt.init := by
  unfold Yt.Inv Yt.init
  constructor
  · intro a b ha _hb
    cases ha
  · constructor
    · intro hf
      cases hf
    · rintro ⟨a, ha⟩
      cases ha
  · exact Or.inl rfl
  · intro a v ha
    cases ha
  · intro a e v ha
    rcases ha with h1 | h1 | h1 | h1 <;> cases h1
  · intro a k ha
    cases ha

theorem inv_step (res : Option String) (pid : Nat → Nat) (s : Yt.St) (i : Nat)
    (h : Yt.Inv res s) : Yt.Inv res (Yt.step res pid s i) := by
  unfold Yt.Inv at h ⊢
  cases hpc : s.pcOf i with
  | start =>
      cases hca : s.cache with
      | none =>
          simp only [Yt.step, hpc, hca, Yt.setPC]
          exact hca ▸ invV_update_nonregion res s.pcOf s.lock s.cache i .sawMiss h
            (by rw [hpc]; rfl) rfl (fun v hv => nomatch hv)
            (fun e v hv => by rcases hv with h1 | h1 <;> cases h1)
            (fun k hk => nomatch hk)
      | some u =>
          have hres : res = some u := by
            rcases h.cacheRes with hc | hc
            · rw [hca] at hc; cases hc
            · rw [hca] at hc; exact hc.symm
          simp only [Yt.step, hpc, hca, Yt.setPC]
          exact hca ▸ invV_update_nonregion res s.pcOf s.lock s.cache i (.ret (.ok u)) h
            (by rw [hpc]; rfl) rfl
            (fun v hv => by
              injection hv with h1
              injection h1 with h2
              exact h2 ▸ hres)
            (fun e v hv => by rcases hv with h1 | h1 <;> cases h1)
            (fun k hk => nomatch hk)
  | sawMiss =>
      cases hinf : s.inflightOf (pid i) with
      | none =>
          simp only [Yt.step, hpc, hinf, Yt.setPC]
          exact invV_update_nonregion res s.pcOf s.lock s.cache i .trySetnx h
            (by rw [hpc]; rfl) rfl (fun v hv => nomatch hv)
            (fun e v hv => by rcases hv with h1 | h1 <;> cases h1)
            (fun k hk => nomatch hk)
      | some e =>
          simp only [Yt.step, hpc, hinf, Yt.setPC]
          exact invV_update_nonregion res s.pcOf s.lock s.cache i (.waitingEvent e) h
            (by rw [hpc]; rfl) rfl (fun v hv => nomatch hv)
            (fun e₁ v hv => by rcases hv with h1 | h1 <;> cases h1)
            (fun k hk => nomatch hk)
  | trySetnx =>
      by_cases hlk : s.lock = true
      · simp only [Yt.step, hpc, if_pos hlk, Yt.setPC]
        exact invV_update_nonregion res s.pcOf s.lock s.cache i (.polling 0) h
          (by rw [hpc]; rfl) rfl (fun v hv => nomatch hv)
          (fun e v hv => by rcases hv with h1 | h1 <;> cases h1)
          (fun k hk => by injection hk with h2; omega)
      · have hlk₀ : s.lock = false := by simpa using hlk
        rw [hlk₀] at h
        simp only [Yt.step, hpc, hlk₀, if_neg (by simp : ¬ (false = true)), Yt.setPC]
        exact invV_acquire res s.pcOf s.cache i h hpc
  | doRegister =>
      simp only [Yt.step, hpc, Yt.setPC]
      exact invV_update_region res s.pcOf s.lock s.cache s.cache i
        (.extracting s.nextEvent) h (by rw [hpc]; rfl) rfl h.cacheRes
        (fun e v hv => by rcases hv with h1 | h1 <;> cases h1)
  | extracting e =>
      cases hres : res with
      | some u =>
          simp only [Yt.step, hpc, hres, Yt.setPC]
          exact hres ▸ invV_update_region res s.pcOf s.lock s.cache s.cache i
            (.cacheSet e u) h (by rw [hpc]; rfl) rfl h.cacheRes
            (fun e₁ v hv => by
              rcases hv with h1 | h1
              · injection h1 with h2 h3
                exact h3 ▸ hres
              · cases h1)
      | none =>
          simp only [Yt.step, hpc, hres, Yt.setPC]
          exact hres ▸ invV_update_region res s.pcOf s.lock s.cache s.cache i
            (.releasing e .err) h (by rw [hpc]; rfl) rfl h.cacheRes
            (fun e₁ v hv => by
              rcases hv with h1 | h1
              · cases h1
              · injection h1 with h2 h3
                cases h3)
  | cacheSet e u =>
      have hres : res = some u := h.carryRes i e u (Or.inl hpc)
      simp only [Yt.step, hpc, Yt.setPC]
      exact invV_update_region res s.pcOf s.lock s.cache (some u) i
        (.releasing e (.ok u)) h (by rw [hpc]; rfl) rfl (Or.inr hres.symm)
        (fun e₁ v hv => by
          rcases hv with h1 | h1
          · cases h1
          · injection h1 with h2 h3
            injection h3 with h4
            exact h4 ▸ hres)
  | releasing e r =>
      simp only [Yt.step, hpc, Yt.setPC]
      exact invV_release res s.pcOf s.lock s.cache i e r h hpc
  | fireEvent e r =>
      simp only [Yt.step, hpc, Yt.setPC]
      exact invV_update_nonregion res s.pcOf s.lock s.cache i (.popInflight e r) h
        (by rw [hpc]; rfl) rfl (fun v hv => nomatch hv)
        (fun e₁ v hv => by
          rcases hv with h1 | h1
          · cases h1
          · injection h1 with h2 h3
            rw [h3] at hpc
            exact h.carryRes _ _ _ (Or.inr (Or.inr (Or.inl hpc))))
        (fun k hk => nomatch hk)
  | popInflight e r =>
      simp only [Yt.step, hpc, Yt.setPC]
      exact invV_update_nonregion res s.pcOf s.lock s.cache i (.ret r) h
        (by rw [hpc]; rfl) rfl
        (fun v hv => by
          injection hv with h2
          rw [h2] at hpc
          exact h.carryRes _ _ _ (Or.inr (Or.inr (Or.inr hpc))))
        (fun e₁ v hv => by rcases hv with h1 | h1 <;> cases h1)
        (fun k hk => nomatch hk)
  | polling k =>
      cases hca : s.cache with
      | some u =>
          have hres : res = some u := by
            rcases h.cacheRes with hc | hc
            · rw [hca] at hc; cases hc
            · rw [hca] at hc; exact hc.symm
          simp only [Yt.step, hpc, hca, Yt.setPC]
          exact hca ▸ invV_update_nonregion res s.pcOf s.lock s.cache i (.ret (.ok u)) h
            (by rw [hpc]; rfl) rfl
            (fun v hv => by
              injection hv with h1
              injection h1 with h2
              exact h2 ▸ hres)
            (fun e v hv => by rcases hv with h1 | h1 <;> cases h1)
            (fun k₁ hk => nomatch hk)
      | none =>
          by_cases hk50 : k + 1 = 50
          · simp only [Yt.step, hpc, hca, if_pos hk50, Yt.setPC]
            exact hca ▸ invV_update_nonregion res s.pcOf s.lock s.cache i (.ret .err) h
              (by rw [hpc]; rfl) rfl (fun v hv => by injection hv with h1; cases h1)
              (fun e v hv => by rcases hv with h1 | h1 <;> cases h1)
              (fun k₁ hk => nomatch hk)
          · have hklt : k < 50 := h.pollLt i k hpc
            simp only [Yt.step, hpc, hca, if_neg hk50, Yt.setPC]
            exact hca ▸ invV_update_nonregion res s.pcOf s.lock s.cache i (.polling (k + 1)) h
              (by rw [hpc]; rfl) rfl (fun v hv => nomatch hv)
              (fun e v hv => by rcases hv with h1 | h1 <;> cases h1)
              (fun k₁ hk => by injection hk with h2; omega)
  | waitingEvent e =>
      by_cases hev : s.eventFired e = true
      · cases hca : s.cache with
        | some u =>
            have hres : res = some u := by
              rcases h.cacheRes with hc | hc
              · rw [hca] at hc; cases hc
              · rw [hca] at hc; exact hc.symm
            simp only [Yt.step, hpc, hca, if_pos hev, Yt.setPC]
            exact hca ▸ invV_update_nonregion res s.pcOf s.lock s.cache i (.ret (.ok u)) h
              (by rw [hpc]; rfl) rfl
              (fun v hv => by
                injection hv with h1
                injection h1 with h2
                exact h2 ▸ hres)
              (fun e₁ v hv => by rcases hv with h1 | h1 <;> cases h1)
              (fun k hk => nomatch hk)
        | none =>
            simp only [Yt.step, hpc, hca, if_pos hev, Yt.setPC]
            exact hca ▸ invV_update_nonregion res s.pcOf s.lock s.cache i (.ret .err) h
              (by rw [hpc]; rfl) rfl (fun v hv => by injection hv with h1; cases h1)
              (fun e₁ v hv => by rcases hv with h1 | h1 <;> cases h1)
              (fun k hk => nomatch hk)
      · simp only [Yt.step, hpc, if_neg hev]
        exact h
  | ret r =>
      simp only [Yt.step, hpc]
      exact h

theorem inv_fold (res : Option String) (pid : Nat → Nat) (sched : List Nat)
    (s : Yt.St) (h : Yt.Inv res s) :
    Yt.Inv res (sched.foldl (Yt.step res pid) s) := by
  induction sched generalizing s with
  | nil => exact h
  | cons a l ih =>
      rw [List.foldl_cons]
      exact ih (Yt.step res pid s a) (inv_step res pid s a h)

theorem inv_exec (res : Option String) (pid : Nat → Nat) (sched : List Nat) :
    Yt.Inv res (Yt.exec res pid sched) := by
  unfold Yt.exec
  exact inv_fold res pid sched Yt.init (inv_init res)

theorem isExtracting_inRegion (p : Yt.PC) (h : Yt.isExtracting p = true) :
    Yt.inRegion p = true := by
  cases p <;> first | rfl | cases h

/-- C2 counterexample: the claim's `exactly one subprocess invocation for
N concurrent callers` fails.  In `raceSched`, caller 1 (process 1) checks
the cache first and misses; caller 0 (process 0) then runs its entire
call — acquiring the lock, extracting, caching the URL and releasing —
after which caller 1, which never re-checks the cache between its
in-flight check and its lock attempt, acquires the freed lock and runs a
second yt-dlp subprocess for the same media id.  Both callers overlap in
time, both return the same URL, yet two invocations occur. -/
theorem c2_counterexample :
    (Yt.exec (some "u") (fun i => i) Yt.raceSched).invocations = 2 ∧
    (Yt.exec (some "u") (fun i => i) Yt.raceSched).pcOf 0 = .ret (.ok "u") ∧
    (Yt.exec (some "u") (fun i => i) Yt.raceSched).pcOf 1 = .ret (.ok "u") := by
  refine ⟨?_, ?_, ?_⟩ <;> rfl

/-- C2 amended: under every interleaving of any number of callers of
`get_or_extract_stream` across any processes (with the extraction lock
never expiring mid-run), at most one yt-dlp subprocess for the media id
runs at any moment, every caller that returns successfully returns the
unique URL yt-dlp produces (so all successful callers agree, and if
resolution fails no caller returns success), and the lock-wait cache
polling is bounded by the configured 50 polls.  The total number of
subprocess invocations over a run can, however, exceed one. -/
theorem c2_resolution_guard (res : Option String) (pid : Nat → Nat) (sched : List Nat) :
    Yt.mutualExclusion (Yt.exec res pid sched) ∧
    Yt.okAgree res (Yt.exec res pid sched) ∧
    Yt.pollBounded (Yt.exec res pid sched) := by
  have h := inv_exec res pid sched
  exact ⟨fun i j hi hj =>
      h.excl i j (isExtracting_inRegion _ hi) (isExtracting_inRegion _ hj),
    h.okRes, h.pollLt⟩

end YoYo
